import Mathlib

/-!
Shallow embedding of the RAG service core
(`app/services/vector_store_service.py`, `app/services/embedding_service.py`,
`app/services/rag_service.py`, `app/models.py`, `app/routers/rag_router.py`).

Modelling conventions:
* Python dicts are association lists in insertion order; a lookup returns the
  LAST binding of a key, matching Python dict-literal semantics where a later
  duplicate key overrides an earlier one.
* Embedding vectors and cosine distances are rationals (`ℚ`).
* Remote calls (Ollama embedding, Ollama chat, the ChromaDB upsert) are
  oracles passed as parameters; fallible ones return `Except String`.
* The ChromaDB collection is a list of entries; its nearest-neighbour query
  is modelled as: filter by the metadata `where`-clause, rank by ascending
  distance (computed by an abstract distance oracle), take `top_k`.
  `delete(ids=...)` with the ids fetched by `get(where=...)` is modelled as
  removal of exactly the entries matching the `where` predicate (ChromaDB ids
  are unique keys, so the two are the same operation).
-/

/-- A metadata value as stored in ChromaDB entry metadata: string or integer. -/
inductive MVal where
  | str (s : String)
  | int (n : Int)
deriving DecidableEq, Repr

/-- A Python dict, as an association list in insertion order. -/
abbrev Meta := List (String × MVal)

/-- Dict lookup: the LAST binding of a key wins, as in a Python dict literal
where later duplicate keys override earlier ones. -/
def metaLookup (m : Meta) (k : String) : Option MVal :=
  match m with
  | [] => none
  | (k0, v0) :: rest =>
    match metaLookup rest k with
    | some v => some v
    | none => if k0 = k then some v0 else none

/-- One persisted ChromaDB record: id, chunk text, embedding, metadata. -/
structure Entry where
  eid : String
  document : String
  embedding : List ℚ
  metadata : Meta
deriving DecidableEq, Repr

instance : Inhabited Entry := ⟨⟨"", "", [], []⟩⟩

/-- The ChromaDB collection `documents`. -/
structure Store where
  entries : List Entry
deriving DecidableEq, Repr

/-- The metadata dict built for chunk `i` in `VectorStoreService.add_chunks`:
`(dict-literal) document_id, chunk_index: i, **(metadata or ())`. In insertion
order the caller metadata comes last, so its bindings override the derived
ones under `metaLookup`. -/
def chunkMetadata (document_id : String) (i : Nat) (metadata : Meta) : Meta :=
  [("document_id", MVal.str document_id), ("chunk_index", MVal.int i)] ++ metadata

namespace VectorStoreService

/-- `VectorStoreService.add_chunks`: store one entry per chunk with id
`document_id ++ "_chunk_" ++ i`, the chunk text, its embedding, and
`chunkMetadata`; returns the number of chunks stored. -/
def add_chunks (st : Store) (document_id : String) (chunks : List String)
    (embeddings : List (List ℚ)) (metadata : Meta) : Store × Nat :=
  let newEntries := (List.range chunks.length).map (fun i =>
    { eid := document_id ++ "_chunk_" ++ toString i
      document := chunks.getD i ""
      embedding := embeddings.getD i []
      metadata := chunkMetadata document_id i metadata : Entry })
  (⟨st.entries ++ newEntries⟩, chunks.length)

/-- The ChromaDB `where (dict) document_id: d (enddict)` clause used by
`get`/`delete`: entry metadata `document_id` equals the given string. -/
def docMatches (document_id : String) (e : Entry) : Bool :=
  metaLookup e.metadata "document_id" == some (MVal.str document_id)

/-- `VectorStoreService.delete_document`: `get` the ids of all entries whose
metadata `document_id` matches, `delete` them, return how many there were. -/
def delete_document (st : Store) (document_id : String) : Store × Nat :=
  let existing := st.entries.filter (docMatches document_id)
  (⟨st.entries.filter (fun e => !(docMatches document_id e))⟩, existing.length)

/-- The `where_filter` built in `VectorStoreService.query`: `None` when
`document_ids` is `None` or empty (Python falsiness), an equality clause for a
single id, and a `$in` clause otherwise. -/
def whereMatches (document_ids : Option (List String)) (e : Entry) : Bool :=
  match document_ids with
  | none => true
  | some [] => true
  | some [d] => metaLookup e.metadata "document_id" == some (MVal.str d)
  | some ds => ds.any (fun d => metaLookup e.metadata "document_id" == some (MVal.str d))

/-- One row of the ChromaDB query result (id, document, metadata, distance). -/
structure SearchResult where
  rid : String
  document : String
  metadata : Meta
  distance : ℚ
deriving DecidableEq, Repr

/-- `VectorStoreService.query`: filter by the `where` clause, rank all
matching entries by ascending cosine distance to the query embedding
(distance supplied by the oracle `dist`), return the first `top_k`. -/
def query (dist : List ℚ → List ℚ → ℚ) (st : Store) (query_embedding : List ℚ)
    (top_k : Nat) (document_ids : Option (List String)) : List SearchResult :=
  let cands := st.entries.filter (whereMatches document_ids)
  let rows := cands.map (fun e =>
    { rid := e.eid, document := e.document, metadata := e.metadata
      distance := dist query_embedding e.embedding : SearchResult })
  (rows.insertionSort (fun a b => a.distance ≤ b.distance)).take top_k

end VectorStoreService

/-- Number of entries currently stored for a `document_id` (by metadata). -/
def countDoc (document_id : String) (st : Store) : Nat :=
  (st.entries.filter (VectorStoreService.docMatches document_id)).length

namespace EmbeddingService

/-- `RecursiveCharacterTextSplitter(chunk_size=500, ...)` bound. -/
def chunk_size : Nat := 500

/-- `RecursiveCharacterTextSplitter(chunk_overlap=50, ...)` bound. -/
def chunk_overlap : Nat := 50

/-- Modelled from the spec: the chunker algorithm lives in the external
`langchain_text_splitters.RecursiveCharacterTextSplitter` library, not in this
repository; `EmbeddingService.split_text` only configures and calls it. The
spec (§4.1) fixes the contract — chunk length ≤ 500, consecutive chunks carry
back a 50-unit overlap, no text dropped — and leaves the exact split/merge
rule an implementation choice, so the model is the character-level sliding
window: chunks start every 450 = 500 − 50 characters. `numChunks n` is how
many windows cover a text of length `n` (0 for empty text; 1 while n ≤ 500;
afterwards one more window per 450 characters, the last window holding the
trailing 51..500 characters). -/
def numChunks (n : Nat) : Nat :=
  if n = 0 then 0 else (n - 51) / 450 + 1

/-- Modelled from the spec: the sliding windows themselves — window `i` is the
up-to-500-character slice starting at position `450 * i`, so each window
shares its first 50 characters with the end of the previous one. -/
def chunkWindows (t : List Char) : List (List Char) :=
  (List.range (numChunks t.length)).map (fun i => (t.drop (450 * i)).take 500)

/-- `EmbeddingService.split_text`: split the document text into chunks. -/
def split_text (text : String) : List String :=
  (chunkWindows text.toList).map String.mk

/-- Concatenating chunks while de-duplicating the overlaps: keep the first
chunk whole and drop the leading 50-character overlap of every later chunk. -/
def reconstruct : List (List Char) → List Char
  | [] => []
  | [c] => c
  | c :: cs => c ++ (reconstruct cs).drop 50

/-- `EmbeddingService.generate_embeddings`: embed each text in input order via
`generate_embedding` (the oracle `embed`); the first failure aborts the whole
batch and propagates, with no partial result. -/
def generate_embeddings (embed : String → Except String (List ℚ)) :
    List String → Except String (List (List ℚ))
  | [] => .ok []
  | t :: ts =>
    match embed t with
    | .error e => .error e
    | .ok v =>
      match generate_embeddings embed ts with
      | .error e => .error e
      | .ok vs => .ok (v :: vs)

end EmbeddingService

/-- `app/models.py` `SourceChunk` (the `document_id` field keeps the raw
metadata value it is read from in `RagService.query`). -/
structure SourceChunk where
  document_id : MVal
  chunk_text : String
  relevance_score : ℚ
  metadata : Meta
deriving DecidableEq, Repr

instance : Inhabited SourceChunk := ⟨⟨MVal.str "", "", 0, []⟩⟩

/-- `app/models.py` `QueryResponse`. -/
structure QueryResponse where
  answer : String
  sources : List SourceChunk
  document_ids_searched : List MVal
deriving DecidableEq, Repr

/-- Remote calls made while serving a query: texts sent to the embedding
model and prompts sent to the chat LLM (the Answer Generator). -/
structure Trace where
  embeds : List String
  llms : List String
deriving DecidableEq, Repr

namespace RagService

/-- Cosine distance (0 = identical, 2 = opposite) to relevance score:
`relevance = 1.0 - (distance / 2.0)`. -/
def relevance (d : ℚ) : ℚ := 1 - d / 2

/-- `round(x, 4)`: round to 4 decimal digits. -/
def round4 (q : ℚ) : ℚ := (round (q * 10000) : ℤ) / 10000

/-- `metadata["document_id"]` as read in `RagService.query` (total variant;
every entry written by `add_chunks` has the key). -/
def getDocId (m : Meta) : MVal := (metaLookup m "document_id").getD (MVal.str "")

/-- The `SourceChunk` built for one search result in `RagService.query`. -/
def mkSourceChunk (r : VectorStoreService.SearchResult) : SourceChunk :=
  { document_id := getDocId r.metadata
    chunk_text := r.document
    relevance_score := round4 (relevance r.distance)
    metadata := r.metadata }

/-- The fixed answer returned when retrieval finds nothing. -/
def no_results_answer : String :=
  "No relevant documents found to answer this question. Please index some documents first."

/-- `RAG_PROMPT_TEMPLATE.format(context=..., question=...)`. -/
def ragPrompt (context question : String) : String :=
  "You are a helpful assistant that answers questions based on the provided context.\n" ++
  "Use ONLY the information in the context below to answer the question.\n" ++
  "If the context does not contain enough information to answer, say so clearly.\n" ++
  "Do not make up information.\n\nContext:\n" ++ context ++
  "\n\nQuestion: " ++ question ++ "\n\nAnswer:"

/-- Context assembly: chunk texts joined by the fixed delimiter. -/
def contextJoin (parts : List String) : String :=
  String.intercalate "\n\n---\n\n" parts

/-- `RagService.query`: embed the question, search the vector store, convert
distances to relevance scores, and either return the fixed no-results
response or send the assembled prompt to the LLM oracle. Also returns the
trace of remote calls made. (Python's `set` of searched ids is modelled as
order-preserving de-duplication.) -/
def query (dist : List ℚ → List ℚ → ℚ) (embed : String → List ℚ)
    (llm : String → String) (st : Store) (question : String)
    (document_ids : Option (List String)) (top_k : Nat) : QueryResponse × Trace :=
  let query_embedding := embed question
  let results := VectorStoreService.query dist st query_embedding top_k document_ids
  let sources := results.map mkSourceChunk
  let context_parts := results.map (fun r => r.document)
  let searched := (results.map (fun r => getDocId r.metadata)).dedup
  if context_parts.isEmpty then
    ({ answer := no_results_answer, sources := [], document_ids_searched := searched },
     { embeds := [question], llms := [] })
  else
    let prompt := ragPrompt (contextJoin context_parts) question
    ({ answer := llm prompt, sources := sources, document_ids_searched := searched },
     { embeds := [question], llms := [prompt] })

/-- `RagService.index_document`: delete the document's old chunks, split the
content, return 0 on no chunks, otherwise embed the chunks and store them.
`upsert_fails` models the ChromaDB `add` call raising (before any write);
either failure leaves the state reached after the delete. -/
def index_document (embed : String → Except String (List ℚ)) (upsert_fails : Bool)
    (st : Store) (document_id : String) (content : String) (metadata : Meta) :
    Store × Except String Nat :=
  let st1 := (VectorStoreService.delete_document st document_id).1
  let chunks := EmbeddingService.split_text content
  if chunks.isEmpty then (st1, .ok 0)
  else
    match EmbeddingService.generate_embeddings embed chunks with
    | .error e => (st1, .error e)
    | .ok embeddings =>
      if upsert_fails then (st1, .error "upsert failed")
      else
        let r := VectorStoreService.add_chunks st1 document_id chunks embeddings metadata
        (r.1, .ok r.2)

end RagService

/-- `QueryRequest` validation (`app/models.py`): non-empty question,
`top_k` with `ge=1, le=10`. -/
def queryRequestValid (question : String) (top_k : Int) : Bool :=
  decide (1 ≤ question.length) && decide (1 ≤ top_k) && decide (top_k ≤ 10)

/-- The `/query` endpoint: Pydantic validates the request before the handler
runs; an invalid request is rejected with a validation error and no remote
call (empty trace). -/
def query_endpoint (dist : List ℚ → List ℚ → ℚ) (embed : String → List ℚ)
    (llm : String → String) (st : Store) (question : String)
    (document_ids : Option (List String)) (top_k : Int) :
    Except String QueryResponse × Trace :=
  if queryRequestValid question top_k then
    let r := RagService.query dist embed llm st question document_ids top_k.toNat
    (.ok r.1, r.2)
  else (.error "ValidationError", { embeds := [], llms := [] })

/-- `app/models.py` `HealthResponse`. -/
structure HealthResponse where
  status : String
  ollama_connected : Bool
  chromadb_connected : Bool
  models_available : List String
deriving DecidableEq, Repr

/-- `health_check` in `app/routers/rag_router.py`: if either service global is
still `None` the response is "unhealthy"; otherwise the connection checks
(oracles `ollama_ok`, `chroma_ok` — `check_connection` never raises) decide
between "healthy" and "degraded". -/
def health_check (emb_init : Bool) (store_init : Bool) (ollama_ok : Bool)
    (models : List String) (chroma_ok : Bool) : HealthResponse :=
  if !emb_init || !store_init then
    { status := "unhealthy", ollama_connected := false, chromadb_connected := false
      models_available := [] }
  else
    { status := if ollama_ok && chroma_ok then "healthy" else "degraded"
      ollama_connected := ollama_ok, chromadb_connected := chroma_ok
      models_available := models }

/-! ## Helper lemmas -/

theorem metaLookup_cons (k0 : String) (v0 : MVal) (rest : Meta) (k : String) :
    metaLookup ((k0, v0) :: rest) k =
      match metaLookup rest k with
      | some v => some v
      | none => if k0 = k then some v0 else none := rfl

theorem metaLookup_append (m1 m2 : Meta) (k : String) :
    metaLookup (m1 ++ m2) k =
      match metaLookup m2 k with
      | some v => some v
      | none => metaLookup m1 k := by
  induction m1 with
  | nil =>
    rw [List.nil_append]
    cases metaLookup m2 k <;> rfl
  | cons p rest ih =>
    obtain ⟨k0, v0⟩ := p
    rw [List.cons_append, metaLookup_cons, metaLookup_cons, ih]
    cases metaLookup m2 k <;> cases metaLookup rest k <;> rfl

theorem metaLookup_chunkMetadata (document_id : String) (i : Nat) (metadata : Meta)
    (k : String) :
    metaLookup (chunkMetadata document_id i metadata) k =
      match metaLookup metadata k with
      | some v => some v
      | none =>
        if k = "document_id" then some (MVal.str document_id)
        else if k = "chunk_index" then some (MVal.int i) else none := by
  rw [chunkMetadata, metaLookup_append]
  cases h : metaLookup metadata k with
  | some v => rfl
  | none =>
    by_cases h1 : k = "document_id" <;> by_cases h2 : k = "chunk_index" <;>
      simp_all [metaLookup, eq_comm]

theorem add_chunks_entry (st : Store) (document_id : String) (chunks : List String)
    (embeddings : List (List ℚ)) (metadata : Meta) (i : Nat) (h : i < chunks.length) :
    ((VectorStoreService.add_chunks st document_id chunks embeddings metadata).1.entries).getD
        (st.entries.length + i) default =
      { eid := document_id ++ "_chunk_" ++ toString i
        document := chunks.getD i ""
        embedding := embeddings.getD i []
        metadata := chunkMetadata document_id i metadata : Entry } := by
  simp only [VectorStoreService.add_chunks]
  rw [List.getD_append_right _ _ _ _ (by simp)]
  simp [List.getD_eq_getElem?_getD, List.getElem?_map, List.getElem?_range, h]

/-! ## C1 — metadata stored by `add_chunks` -/

/-- C1 as stated is FALSE: a caller-supplied `document_id` key DOES override
the derived value. In `add_chunks ⟨[]⟩ "doc-1" ["hello"] [[1]]` with caller
metadata binding `document_id` to `"evil"`, the stored metadata of entry 0
yields `"evil"`, not the derived `"doc-1"`. -/
theorem C1_counterexample :
    metaLookup
      (((VectorStoreService.add_chunks ⟨[]⟩ "doc-1" ["hello"] [[1]]
          [("document_id", MVal.str "evil")]).1.entries.getD 0 default).metadata)
      "document_id" = some (MVal.str "evil") ∧
    MVal.str "evil" ≠ MVal.str "doc-1" := by
  constructor
  · rfl
  · decide

/-- C1 (amended): the metadata stored for entry `i` by `add_chunks` is the
dict `(document_id, chunk_index: i)` extended with the caller metadata, in
which caller-supplied keys DO override the derived `document_id` and
`chunk_index`; the derived values are only seen for keys the caller leaves
unbound. -/
theorem C1_add_chunks_metadata (st : Store) (document_id : String)
    (chunks : List String) (embeddings : List (List ℚ)) (metadata : Meta)
    (i : Nat) (h : i < chunks.length) :
    (((VectorStoreService.add_chunks st document_id chunks embeddings metadata).1.entries).getD
        (st.entries.length + i) default).metadata = chunkMetadata document_id i metadata ∧
    (∀ k v, metaLookup metadata k = some v →
      metaLookup (chunkMetadata document_id i metadata) k = some v) ∧
    (metaLookup metadata "document_id" = none →
      metaLookup (chunkMetadata document_id i metadata) "document_id" =
        some (MVal.str document_id)) ∧
    (metaLookup metadata "chunk_index" = none →
      metaLookup (chunkMetadata document_id i metadata) "chunk_index" =
        some (MVal.int i)) := by
  refine ⟨?_, ?_, ?_, ?_⟩
  · rw [add_chunks_entry st document_id chunks embeddings metadata i h]
  · intro k v hv
    rw [metaLookup_chunkMetadata, hv]
  · intro hnone
    rw [metaLookup_chunkMetadata, hnone]
    rfl
  · intro hnone
    rw [metaLookup_chunkMetadata, hnone]
    rfl

/-- Witness for C1: concrete instance with one chunk and a caller metadata
binding `category`; the derived keys are visible and the caller key is kept. -/
theorem C1_add_chunks_metadata_witness :
    (0 : Nat) < (["hello"] : List String).length ∧
    (((VectorStoreService.add_chunks ⟨[]⟩ "doc-1" ["hello"] [[1]]
        [("category", MVal.str "hr")]).1.entries).getD 0 default).metadata =
      chunkMetadata "doc-1" 0 [("category", MVal.str "hr")] ∧
    metaLookup (chunkMetadata "doc-1" 0 [("category", MVal.str "hr")]) "document_id" =
      some (MVal.str "doc-1") := by
  refine ⟨by decide, ?_, ?_⟩
  · exact (C1_add_chunks_metadata ⟨[]⟩ "doc-1" ["hello"] [[1]]
      [("category", MVal.str "hr")] 0 (by decide)).1
  · exact (C1_add_chunks_metadata ⟨[]⟩ "doc-1" ["hello"] [[1]]
      [("category", MVal.str "hr")] 0 (by decide)).2.2.1 (by decide)

/-! ## C10 — health endpoint status -/

/-- C10: once the router is initialized (both service globals set), the
health endpoint returns only "healthy" or "degraded"; "unhealthy" is returned
exclusively when the services are not initialized — even with both
dependencies unreachable the initialized status is "degraded". -/
theorem C10_health_status :
    (∀ (o : Bool) (m : List String) (c : Bool),
      (health_check true true o m c).status = "healthy" ∨
      (health_check true true o m c).status = "degraded") ∧
    (health_check true true false [] false).status = "degraded" ∧
    (∀ (e s o : Bool) (m : List String) (c : Bool),
      (health_check e s o m c).status = "unhealthy" → e = false ∨ s = false) := by
  refine ⟨?_, by decide, ?_⟩
  · intro o m c
    cases o <;> cases c <;> simp [health_check]
  · intro e s o m c hu
    cases e <;> cases s <;> simp_all [health_check] <;>
      cases o <;> cases c <;> simp_all

/-- Witness for C10: with services initialized and both checks failing the
status is "degraded", and an "unhealthy" response at a concrete uninitialized
state implies a service global was unset. -/
theorem C10_health_status_witness :
    ((health_check true true false [] false).status = "healthy" ∨
      (health_check true true false [] false).status = "degraded") ∧
    (false = false ∨ true = false) := by
  refine ⟨C10_health_status.1 false [] false, ?_⟩
  exact C10_health_status.2.2 false true true [] true rfl

/-! ## C4 — empty retrieval is a terminal case -/

/-- C4: when the vector search returns no results, `query` returns the fixed
"no relevant documents" answer with empty sources and empty
`document_ids_searched`, and sends nothing to the LLM (Answer Generator). -/
theorem C4_empty_results_terminal (dist : List ℚ → List ℚ → ℚ)
    (embed : String → List ℚ) (llm : String → String) (st : Store)
    (question : String) (document_ids : Option (List String)) (top_k : Nat)
    (h : VectorStoreService.query dist st (embed question) top_k document_ids = []) :
    (RagService.query dist embed llm st question document_ids top_k).1.answer =
      RagService.no_results_answer ∧
    (RagService.query dist embed llm st question document_ids top_k).1.sources = [] ∧
    (RagService.query dist embed llm st question document_ids top_k).1.document_ids_searched = [] ∧
    (RagService.query dist embed llm st question document_ids top_k).2.llms = [] := by
  simp [RagService.query, h]

/-- Witness for C4: querying an empty store. -/
theorem C4_empty_results_terminal_witness :
    VectorStoreService.query (fun _ _ => 0) ⟨[]⟩ ((fun _ => ([] : List ℚ)) "q") 3 none = [] ∧
    (RagService.query (fun _ _ => 0) (fun _ => []) (fun _ => "llm answer") ⟨[]⟩ "q" none 3).1.answer =
      RagService.no_results_answer ∧
    (RagService.query (fun _ _ => 0) (fun _ => []) (fun _ => "llm answer") ⟨[]⟩ "q" none 3).2.llms = [] := by
  have h : VectorStoreService.query (fun _ _ => 0) ⟨[]⟩
      ((fun _ => ([] : List ℚ)) "q") 3 none = [] := by decide
  have := C4_empty_results_terminal (fun _ _ => 0) (fun _ => []) (fun _ => "llm answer")
    ⟨[]⟩ "q" none 3 h
  exact ⟨h, this.1, this.2.2.2⟩

/-! ## C6 — batch embedding -/

/-- C6: `generate_embeddings` embeds each input once in input order — when
every item succeeds it returns exactly the input-order list of vectors, same
length as the input; and if some item fails (all earlier items succeeding),
the whole batch returns that item's error, so no partial result reaches the
caller. -/
theorem C6_generate_embeddings (embed : String → Except String (List ℚ)) :
    (∀ (ev : String → List ℚ) (texts : List String),
      (∀ t ∈ texts, embed t = .ok (ev t)) →
      EmbeddingService.generate_embeddings embed texts = .ok (texts.map ev) ∧
      (texts.map ev).length = texts.length) ∧
    (∀ (pre : List String) (t : String) (post : List String) (e : String),
      (∀ u ∈ pre, ∃ v, embed u = .ok v) → embed t = .error e →
      EmbeddingService.generate_embeddings embed (pre ++ t :: post) = .error e) := by
  constructor
  · intro ev texts hall
    refine ⟨?_, by simp⟩
    induction texts with
    | nil => rfl
    | cons t ts ih =>
      have ht : embed t = .ok (ev t) := hall t (by simp)
      have hts := ih (fun u hu => hall u (by simp [hu]))
      simp [EmbeddingService.generate_embeddings, ht, hts]
  · intro pre t post e hpre ht
    induction pre with
    | nil => simp [EmbeddingService.generate_embeddings, ht]
    | cons u us ih =>
      obtain ⟨v, hv⟩ := hpre u (by simp)
      have hus := ih (fun w hw => hpre w (by simp [hw]))
      simp [EmbeddingService.generate_embeddings, hv, hus]

/-- Witness for C6: a two-item batch where both items succeed, and a batch
whose second item fails. -/
theorem C6_generate_embeddings_witness :
    EmbeddingService.generate_embeddings (fun t => .ok [(t.length : ℚ)]) ["a", "bc"] =
      .ok [[1], [2]] ∧
    EmbeddingService.generate_embeddings
      (fun t => if t = "bad" then .error "embed down" else .ok [1]) ["a", "bad", "c"] =
      .error "embed down" := by
  constructor
  · have := (C6_generate_embeddings (fun t => .ok [(t.length : ℚ)])).1
      (fun t => [(t.length : ℚ)]) ["a", "bc"] (fun t _ => rfl)
    simpa using this.1
  · exact (C6_generate_embeddings
      (fun t => if t = "bad" then .error "embed down" else .ok [1])).2
      ["a"] "bad" ["c"] "embed down"
      (fun u hu => ⟨[1], by simp at hu; simp [hu]⟩) (by simp)

/-! ## C8 — top_k bound and request validation -/

theorem countDoc_delete (st : Store) (document_id : String) :
    countDoc document_id (VectorStoreService.delete_document st document_id).1 = 0 := by
  simp [countDoc, VectorStoreService.delete_document, List.filter_filter]

/-- C8: a query response carries at most `top_k` sources; and a request whose
`top_k` lies outside [1,10] is rejected by validation with no remote call
made (empty trace: no embedding, no search input, no generation). -/
theorem C8_top_k_bound :
    (∀ (dist : List ℚ → List ℚ → ℚ) (embed : String → List ℚ) (llm : String → String)
      (st : Store) (q : String) (dids : Option (List String)) (k : Nat),
      ((RagService.query dist embed llm st q dids k).1.sources).length ≤ k) ∧
    (∀ (dist : List ℚ → List ℚ → ℚ) (embed : String → List ℚ) (llm : String → String)
      (st : Store) (question : String) (dids : Option (List String)) (tk : Int),
      tk < 1 ∨ 10 < tk →
      query_endpoint dist embed llm st question dids tk =
        (.error "ValidationError", { embeds := [], llms := [] })) := by
  constructor
  · intro dist embed llm st q dids k
    by_cases hemp :
        ((VectorStoreService.query dist st (embed q) k dids).map
          (fun r => r.document)).isEmpty
    · simp [RagService.query, hemp]
    · simp only [RagService.query]
      rw [if_neg (by simpa using hemp)]
      simp [VectorStoreService.query, List.length_take]
  · intro dist embed llm st question dids tk htk
    have hv : queryRequestValid question tk = false := by
      simp only [queryRequestValid, Bool.and_eq_false_iff, decide_eq_false_iff_not]
      rcases htk with h | h
      · exact Or.inl (Or.inr (by omega))
      · exact Or.inr (by omega)
    simp [query_endpoint, hv]

/-- Witness for C8: a concrete bounded query and a rejected `top_k = 0`. -/
theorem C8_top_k_bound_witness :
    ((RagService.query (fun _ _ => 0) (fun _ => []) (fun _ => "a") ⟨[]⟩ "q" none 3).1.sources).length ≤ 3 ∧
    ((0 : Int) < 1 ∨ (10 : Int) < 0) ∧
    query_endpoint (fun _ _ => 0) (fun _ => []) (fun _ => "a") ⟨[]⟩ "q" none 0 =
      (.error "ValidationError", { embeds := [], llms := [] }) := by
  refine ⟨C8_top_k_bound.1 (fun _ _ => 0) (fun _ => []) (fun _ => "a") ⟨[]⟩ "q" none 3,
    Or.inl (by decide), ?_⟩
  exact C8_top_k_bound.2 (fun _ _ => 0) (fun _ => []) (fun _ => "a") ⟨[]⟩ "q" none 0
    (Or.inl (by decide))

/-! ## C3 — failure after the delete leaves zero chunks -/

/-- C3: if `index_document` fails after its initial delete (embedding batch
fails, or the vector-store upsert raises), the operation aborts with the
document left with zero chunks in the index — old chunks deleted, no new
chunks inserted. -/
theorem C3_failed_index_zero_chunks (embed : String → Except String (List ℚ))
    (upsert_fails : Bool) (st : Store) (document_id content : String)
    (metadata : Meta) (e : String)
    (h : (RagService.index_document embed upsert_fails st document_id content metadata).2 =
      .error e) :
    countDoc document_id
      (RagService.index_document embed upsert_fails st document_id content metadata).1 = 0 := by
  have hdel := countDoc_delete st document_id
  simp only [RagService.index_document] at h ⊢
  by_cases hc : (EmbeddingService.split_text content).isEmpty
  · rw [if_pos hc] at h
    simp at h
  · rw [if_neg hc] at h ⊢
    cases hge : EmbeddingService.generate_embeddings embed (EmbeddingService.split_text content) with
    | error err =>
      exact hdel
    | ok embs =>
      cases upsert_fails with
      | false =>
        rw [hge] at h
        simp at h
      | true => exact hdel

/-- Witness for C3: the embedding model is down; indexing "hi" fails and the
document ends with zero chunks. -/
theorem C3_failed_index_zero_chunks_witness :
    (RagService.index_document (fun _ => .error "down") false ⟨[]⟩ "doc" "hi" []).2 =
      .error "down" ∧
    countDoc "doc"
      (RagService.index_document (fun _ => .error "down") false ⟨[]⟩ "doc" "hi" []).1 = 0 := by
  have h : (RagService.index_document (fun _ => Except.error "down") false ⟨[]⟩ "doc" "hi" []).2 =
      .error "down" := rfl
  exact ⟨h, C3_failed_index_zero_chunks (fun _ => .error "down") false ⟨[]⟩ "doc" "hi" [] "down" h⟩

/-! ## C2 — re-indexing replaces, never accumulates -/

theorem generate_embeddings_ok (ev : String → List ℚ) (texts : List String) :
    EmbeddingService.generate_embeddings (fun t => .ok (ev t)) texts = .ok (texts.map ev) := by
  induction texts with
  | nil => rfl
  | cons t ts ih => simp [EmbeddingService.generate_embeddings, ih]

theorem countDoc_add_chunks (s : Store) (d : String) (chunks : List String)
    (embs : List (List ℚ)) (m : Meta) (h : metaLookup m "document_id" = none) :
    countDoc d ((VectorStoreService.add_chunks s d chunks embs m).1) =
      countDoc d s + chunks.length := by
  simp only [countDoc, VectorStoreService.add_chunks, List.filter_append, List.length_append]
  congr 1
  rw [List.filter_eq_self.mpr, List.length_map, List.length_range]
  intro e he
  simp only [List.mem_map, List.mem_range] at he
  obtain ⟨i, hi, rfl⟩ := he
  simp [VectorStoreService.docMatches, metaLookup_chunkMetadata, h]

theorem index_document_success_count (ev : String → List ℚ) (s : Store)
    (d : String) (c : String) (m : Meta) (h : metaLookup m "document_id" = none) :
    countDoc d (RagService.index_document (fun t => .ok (ev t)) false s d c m).1 =
      (EmbeddingService.split_text c).length := by
  simp only [RagService.index_document]
  by_cases hc : (EmbeddingService.split_text c).isEmpty
  · rw [if_pos hc]
    rw [List.isEmpty_iff.mp hc]
    simpa using countDoc_delete s d
  · rw [if_neg hc, generate_embeddings_ok]
    simpa [countDoc_add_chunks _ _ _ _ _ h] using countDoc_delete s d

/-- C2: indexing the same `document_id` twice leaves exactly the chunk count
of the second call in the index (never the sum), because the prior chunks of
that document are all deleted before the new ones are inserted. The second
call's caller metadata is assumed not to bind the key `document_id` (the
caller-override of C1 would otherwise relabel the new chunks). -/
theorem C2_reindex_replaces (ev : String → List ℚ) (st : Store) (document_id : String)
    (c1 c2 : String) (m1 m2 : Meta) (h : metaLookup m2 "document_id" = none) :
    countDoc document_id
      (RagService.index_document (fun t => .ok (ev t)) false
        (RagService.index_document (fun t => .ok (ev t)) false st document_id c1 m1).1
        document_id c2 m2).1 = (EmbeddingService.split_text c2).length ∧
    countDoc document_id
      (VectorStoreService.delete_document
        (RagService.index_document (fun t => .ok (ev t)) false st document_id c1 m1).1
        document_id).1 = 0 :=
  ⟨index_document_success_count ev _ document_id c2 m2 h, countDoc_delete _ _⟩

/-- Witness for C2: index "doc" with content "one", re-index with "two";
exactly one chunk (the second call's count) remains. -/
theorem C2_reindex_replaces_witness :
    metaLookup ([] : Meta) "document_id" = none ∧
    countDoc "doc"
      (RagService.index_document (fun t => .ok [((String.length t : Int) : ℚ)]) false
        (RagService.index_document (fun t => .ok [((String.length t : Int) : ℚ)]) false
          ⟨[]⟩ "doc" "one" []).1
        "doc" "two" []).1 = (EmbeddingService.split_text "two").length ∧
    (EmbeddingService.split_text "two").length = 1 := by
  refine ⟨rfl, ?_, by decide⟩
  exact (C2_reindex_replaces (fun t => [((String.length t : Int) : ℚ)]) ⟨[]⟩ "doc"
    "one" "two" [] [] rfl).1

/-! ## C5 — distance-to-relevance conversion -/

theorem sources_eq_map (dist : List ℚ → List ℚ → ℚ) (embed : String → List ℚ)
    (llm : String → String) (st : Store) (q : String)
    (dids : Option (List String)) (k : Nat) :
    (RagService.query dist embed llm st q dids k).1.sources =
      (VectorStoreService.query dist st (embed q) k dids).map RagService.mkSourceChunk := by
  by_cases hemp :
      ((VectorStoreService.query dist st (embed q) k dids).map (fun r => r.document)).isEmpty
  · have hnil : VectorStoreService.query dist st (embed q) k dids = [] := by
      simpa [List.isEmpty_iff, List.map_eq_nil_iff] using hemp
    simp [RagService.query, hemp, hnil]
  · simp only [RagService.query]
    rw [if_neg (by simpa using hemp)]

/-- C5: every source chunk reports `round(1 - distance/2, 4)` as its
relevance score; for cosine distance `d ∈ [0,2]` this value lies in `[0,1]`,
with `d = 0 ↦ 1` and `d = 2 ↦ 0`. -/
theorem C5_relevance_score :
    (∀ d : ℚ, 0 ≤ d → d ≤ 2 →
      0 ≤ RagService.round4 (RagService.relevance d) ∧
      RagService.round4 (RagService.relevance d) ≤ 1) ∧
    RagService.round4 (RagService.relevance 0) = 1 ∧
    RagService.round4 (RagService.relevance 2) = 0 ∧
    (∀ r : VectorStoreService.SearchResult,
      (RagService.mkSourceChunk r).relevance_score =
        RagService.round4 (RagService.relevance r.distance)) ∧
    (∀ (dist : List ℚ → List ℚ → ℚ) (embed : String → List ℚ) (llm : String → String)
      (st : Store) (q : String) (dids : Option (List String)) (k : Nat),
      (RagService.query dist embed llm st q dids k).1.sources =
        (VectorStoreService.query dist st (embed q) k dids).map RagService.mkSourceChunk) := by
  have mono : ∀ a b : ℚ, a ≤ b → round a ≤ round b := by
    intro a b hab
    rw [round_eq, round_eq]
    exact Int.floor_le_floor (by linarith)
  have hround10000 : round ((10000 : ℚ)) = 10000 := by
    rw [round_eq]
    norm_num
  refine ⟨?_, by norm_num [RagService.round4, RagService.relevance],
    by norm_num [RagService.round4, RagService.relevance], fun r => rfl, sources_eq_map⟩
  intro d h0 h2
  have hq0 : (0 : ℚ) ≤ (1 - d / 2) * 10000 := by nlinarith
  have hq1 : (1 - d / 2) * 10000 ≤ 10000 := by nlinarith
  have hr0 : (0 : ℤ) ≤ round ((1 - d / 2) * 10000) := by
    have h := mono 0 ((1 - d / 2) * 10000) hq0
    simpa using h
  have hr1 : round ((1 - d / 2) * 10000) ≤ 10000 := by
    have h := mono ((1 - d / 2) * 10000) 10000 hq1
    rwa [hround10000] at h
  constructor
  · unfold RagService.round4 RagService.relevance
    apply div_nonneg _ (by norm_num)
    exact_mod_cast hr0
  · unfold RagService.round4 RagService.relevance
    rw [div_le_one (by norm_num)]
    exact_mod_cast hr1

/-- Witness for C5: the bounds instantiated at distance 1/2
(relevance 0.875). -/
theorem C5_relevance_score_witness :
    (0 : ℚ) ≤ 1 / 2 ∧ (1 / 2 : ℚ) ≤ 2 ∧
    0 ≤ RagService.round4 (RagService.relevance (1 / 2)) ∧
    RagService.round4 (RagService.relevance (1 / 2)) ≤ 1 := by
  refine ⟨by norm_num, by norm_num, ?_, ?_⟩
  · exact (C5_relevance_score.1 (1 / 2) (by norm_num) (by norm_num)).1
  · exact (C5_relevance_score.1 (1 / 2) (by norm_num) (by norm_num)).2

/-! ## C7 — document_id filtering -/

/-- C7: a query with a non-empty `document_ids` filter only ever returns
sources whose `document_id` is in the filter list; with no filter (absent or
empty list) the whole index is searched. -/
theorem C7_document_filter :
    (∀ (dist : List ℚ → List ℚ → ℚ) (embed : String → List ℚ) (llm : String → String)
      (st : Store) (q : String) (ids : List String) (k : Nat), ids ≠ [] →
      ∀ s ∈ (RagService.query dist embed llm st q (some ids) k).1.sources,
        ∃ d ∈ ids, s.document_id = MVal.str d) ∧
    (∀ (dist : List ℚ → List ℚ → ℚ) (st : Store) (qe : List ℚ) (k : Nat),
      VectorStoreService.query dist st qe k (some []) =
        VectorStoreService.query dist st qe k none) ∧
    (∀ st : Store, st.entries.filter (VectorStoreService.whereMatches none) = st.entries) := by
  refine ⟨?_, ?_, ?_⟩
  · intro dist embed llm st q ids k hne s hs
    rw [sources_eq_map] at hs
    obtain ⟨r, hr, rfl⟩ := List.mem_map.mp hs
    simp only [VectorStoreService.query] at hr
    have h1 := List.take_subset k _ hr
    have h2 := (List.mem_insertionSort _).mp h1
    obtain ⟨e, he, rfl⟩ := List.mem_map.mp h2
    have hw := (List.mem_filter.mp he).2
    cases ids with
    | nil => exact absurd rfl hne
    | cons d tail =>
      cases tail with
      | nil =>
        simp only [VectorStoreService.whereMatches, beq_iff_eq] at hw
        exact ⟨d, by simp, by simp [RagService.mkSourceChunk, RagService.getDocId, hw]⟩
      | cons d2 rest =>
        simp only [VectorStoreService.whereMatches, List.any_eq_true, beq_iff_eq] at hw
        obtain ⟨d3, hd3, hvd⟩ := hw
        exact ⟨d3, hd3, by simp [RagService.mkSourceChunk, RagService.getDocId, hvd]⟩
  · intro dist st qe k
    have hfil : st.entries.filter (VectorStoreService.whereMatches (some [])) =
        st.entries.filter (VectorStoreService.whereMatches none) :=
      List.filter_congr (fun e _ => rfl)
    simp only [VectorStoreService.query, hfil]
  · intro st
    exact List.filter_eq_self.mpr (fun a _ => rfl)

/-- Witness for C7: a one-entry store for document "A", queried with filter
`["A"]`; the returned source's `document_id` is in the filter. -/
theorem C7_document_filter_witness :
    (["A"] : List String) ≠ [] ∧
    (∃ d ∈ (["A"] : List String),
      ((RagService.query (fun _ _ => 0) (fun _ => [1]) (fun _ => "ans")
          ⟨[⟨"A_chunk_0", "hello", [1],
            [("document_id", MVal.str "A"), ("chunk_index", MVal.int 0)]⟩]⟩
          "q" (some ["A"]) 3).1.sources.getD 0 default).document_id = MVal.str d) := by
  refine ⟨by decide, ?_⟩
  have hlen : ((RagService.query (fun _ _ => 0) (fun _ => [1]) (fun _ => "ans")
      ⟨[⟨"A_chunk_0", "hello", [1],
        [("document_id", MVal.str "A"), ("chunk_index", MVal.int 0)]⟩]⟩
      "q" (some ["A"]) 3).1.sources).length = 1 := rfl
  have hpos : 0 < ((RagService.query (fun _ _ => 0) (fun _ => [1]) (fun _ => "ans")
      ⟨[⟨"A_chunk_0", "hello", [1],
        [("document_id", MVal.str "A"), ("chunk_index", MVal.int 0)]⟩]⟩
      "q" (some ["A"]) 3).1.sources).length := by
    rw [hlen]
    exact Nat.one_pos
  refine C7_document_filter.1 (fun _ _ => 0) (fun _ => [1]) (fun _ => "ans")
    ⟨[⟨"A_chunk_0", "hello", [1],
      [("document_id", MVal.str "A"), ("chunk_index", MVal.int 0)]⟩]⟩
    "q" ["A"] 3 (by decide) _ ?_
  rw [List.getD_eq_getElem _ default hpos]
  exact List.getElem_mem hpos

/-! ## C9 — chunker contract -/

theorem chunkWindows_short (t : List Char) (h0 : t ≠ []) (h : t.length ≤ 500) :
    EmbeddingService.chunkWindows t = [t] := by
  have hn : t.length ≠ 0 := fun hh => h0 (List.length_eq_zero.mp hh)
  have hnum : EmbeddingService.numChunks t.length = 1 := by
    simp only [EmbeddingService.numChunks]
    rw [if_neg hn]
    have hdiv : (t.length - 51) / 450 = 0 := Nat.div_eq_of_lt (by omega)
    omega
  simp only [EmbeddingService.chunkWindows, hnum]
  rw [show List.range 1 = [0] from rfl]
  simp only [List.map_cons, List.map_nil, Nat.mul_zero, List.drop_zero]
  rw [List.take_of_length_le h]

theorem chunkWindows_long (t : List Char) (h : 500 < t.length) :
    EmbeddingService.chunkWindows t =
      t.take 500 :: EmbeddingService.chunkWindows (t.drop 450) := by
  have hn : t.length ≠ 0 := by omega
  have hd : (t.drop 450).length = t.length - 450 := by simp
  have hnum : EmbeddingService.numChunks t.length =
      EmbeddingService.numChunks (t.drop 450).length + 1 := by
    rw [hd]
    simp only [EmbeddingService.numChunks]
    rw [if_neg hn, if_neg (by omega)]
    rw [Nat.div_eq_sub_div (by norm_num) (by omega : 450 ≤ t.length - 51)]
    have heq : t.length - 51 - 450 = t.length - 450 - 51 := by omega
    rw [heq]
  simp only [EmbeddingService.chunkWindows, hnum]
  rw [List.range_succ_eq_map]
  simp only [List.map_cons, List.map_map, Nat.mul_zero, List.drop_zero]
  congr 1
  apply List.map_congr_left
  intro i _
  simp only [Function.comp_apply, List.drop_drop]
  congr 2
  omega

theorem chunkWindows_length_le (t : List Char) :
    ∀ c ∈ EmbeddingService.chunkWindows t, c.length ≤ 500 := by
  intro c hc
  simp only [EmbeddingService.chunkWindows, List.mem_map, List.mem_range] at hc
  obtain ⟨i, _, rfl⟩ := hc
  exact List.length_take_le 500 _

theorem chunkWindows_getD (t : List Char) (i : Nat)
    (hik : i < EmbeddingService.numChunks t.length) :
    (EmbeddingService.chunkWindows t).getD i [] = (t.drop (450 * i)).take 500 := by
  have hlen : (EmbeddingService.chunkWindows t).length = EmbeddingService.numChunks t.length := by
    simp [EmbeddingService.chunkWindows]
  rw [List.getD_eq_getElem _ _ (by rw [hlen]; exact hik)]
  simp [EmbeddingService.chunkWindows]

theorem chunkWindows_overlap (t : List Char) (i : Nat)
    (h : i + 1 < (EmbeddingService.chunkWindows t).length) :
    ((EmbeddingService.chunkWindows t).getD i []).drop 450 =
      ((EmbeddingService.chunkWindows t).getD (i + 1) []).take 50 ∧
    (((EmbeddingService.chunkWindows t).getD (i + 1) []).take 50).length = 50 := by
  have hlen : (EmbeddingService.chunkWindows t).length = EmbeddingService.numChunks t.length := by
    simp [EmbeddingService.chunkWindows]
  rw [hlen] at h
  have hn : t.length ≠ 0 := by
    intro hz
    simp [EmbeddingService.numChunks, hz] at h
  have hkval : EmbeddingService.numChunks t.length = (t.length - 51) / 450 + 1 := by
    simp [EmbeddingService.numChunks, hn]
  have hdm : (t.length - 51) / 450 * 450 ≤ t.length - 51 := Nat.div_mul_le_self _ _
  have hbound : 450 * (i + 1) + 51 ≤ t.length := by
    have hi : i + 1 ≤ (t.length - 51) / 450 := by omega
    have : (i + 1) * 450 ≤ (t.length - 51) / 450 * 450 := Nat.mul_le_mul_right _ hi
    omega
  rw [chunkWindows_getD t i (by omega), chunkWindows_getD t (i + 1) (by omega)]
  constructor
  · rw [List.drop_take, List.take_take, List.drop_drop]
    have h1 : (500 : Nat) - 450 = 50 := by norm_num
    have h2 : (50 : Nat) ⊓ 500 = 50 := by norm_num
    have h3 : 450 * i + 450 = 450 * (i + 1) := by ring
    rw [h1, h2, h3]
  · rw [List.take_take]
    have h2 : (50 : Nat) ⊓ 500 = 50 := by norm_num
    rw [h2]
    simp only [List.length_take, List.length_drop]
    omega

theorem reconstruct_chunkWindows : ∀ t : List Char,
    EmbeddingService.reconstruct (EmbeddingService.chunkWindows t) = t := by
  suffices H : ∀ (n : Nat) (t : List Char), t.length = n →
      EmbeddingService.reconstruct (EmbeddingService.chunkWindows t) = t by
    intro t
    exact H t.length t rfl
  intro n
  induction n using Nat.strong_induction_on with
  | _ n ih =>
    intro t ht
    by_cases h0 : t = []
    · subst h0
      rfl
    · by_cases h5 : t.length ≤ 500
      · rw [chunkWindows_short t h0 h5]
        rfl
      · rw [chunkWindows_long t (by omega)]
        have hd : (t.drop 450).length = t.length - 450 := by simp
        have hrec := ih (t.length - 450) (by omega) (t.drop 450) hd
        have hne : EmbeddingService.chunkWindows (t.drop 450) ≠ [] := by
          apply List.length_pos.mp
          have hlen2 : (EmbeddingService.chunkWindows (t.drop 450)).length =
              EmbeddingService.numChunks (t.drop 450).length := by
            simp [EmbeddingService.chunkWindows]
          rw [hlen2, hd]
          simp only [EmbeddingService.numChunks]
          rw [if_neg (by omega)]
          omega
        obtain ⟨c, cs, hcons⟩ := List.exists_cons_of_ne_nil hne
        rw [hcons]
        show t.take 500 ++ (EmbeddingService.reconstruct (c :: cs)).drop 50 = t
        rw [← hcons, hrec, List.drop_drop]
        have h450 : (450 : Nat) + 50 = 500 := by norm_num
        rw [h450]
        exact List.take_append_drop 500 t

/-- C9: the chunker contract — every chunk is at most 500 characters long;
whenever more than one chunk is produced, consecutive chunks share an overlap
of exactly `chunk_overlap = 50` characters (non-zero, bounded); concatenating
the chunks while de-duplicating the overlaps reconstructs the original text
with nothing dropped; and empty input yields an empty chunk list. -/
theorem C9_chunker_contract (t : List Char) :
    (∀ c ∈ EmbeddingService.chunkWindows t, c.length ≤ EmbeddingService.chunk_size) ∧
    (∀ i : Nat, i + 1 < (EmbeddingService.chunkWindows t).length →
      ((EmbeddingService.chunkWindows t).getD i []).drop 450 =
        ((EmbeddingService.chunkWindows t).getD (i + 1) []).take 50 ∧
      (((EmbeddingService.chunkWindows t).getD (i + 1) []).take 50).length =
        EmbeddingService.chunk_overlap ∧
      0 < EmbeddingService.chunk_overlap) ∧
    EmbeddingService.reconstruct (EmbeddingService.chunkWindows t) = t ∧
    (t = [] → EmbeddingService.chunkWindows t = []) ∧
    EmbeddingService.split_text "" = [] := by
  refine ⟨chunkWindows_length_le t, ?_, reconstruct_chunkWindows t, ?_, rfl⟩
  · intro i hi
    have h := chunkWindows_overlap t i hi
    exact ⟨h.1, h.2, by norm_num [EmbeddingService.chunk_overlap]⟩
  · intro h0
    subst h0
    rfl

set_option maxRecDepth 4000 in
/-- Witness for C9: a 501-character text produces two chunks; the overlap
equation holds at the first junction and reconstruction returns the text. -/
theorem C9_chunker_contract_witness :
    0 + 1 < (EmbeddingService.chunkWindows (List.replicate 501 'a')).length ∧
    ((EmbeddingService.chunkWindows (List.replicate 501 'a')).getD 0 []).drop 450 =
      ((EmbeddingService.chunkWindows (List.replicate 501 'a')).getD 1 []).take 50 ∧
    EmbeddingService.reconstruct (EmbeddingService.chunkWindows (List.replicate 501 'a')) =
      List.replicate 501 'a' := by
  have hlt : 0 + 1 < (EmbeddingService.chunkWindows (List.replicate 501 'a')).length := by
    have hlen : (EmbeddingService.chunkWindows (List.replicate 501 'a')).length =
        EmbeddingService.numChunks (List.replicate 501 'a').length := by
      simp [EmbeddingService.chunkWindows]
    rw [hlen]
    simp [EmbeddingService.numChunks]
  exact ⟨hlt, ((C9_chunker_contract (List.replicate 501 'a')).2.1 0 hlt).1,
    (C9_chunker_contract (List.replicate 501 'a')).2.2.1⟩
